import Mathlib

/-!
Verification of the declarative field validator of aviabot-shared-utils
(src/validation/validator.go), as a shallow embedding in Lean 4.

The Go validator inspects a struct via reflection; we model a reflected
value by the inductive `GoValue` (one constructor per reflect kind class
the validator distinguishes), a struct field by `GoField` (name, exported
flag, validate tag, value) and the Validate input by `VTarget`.  Each Go
function of the source file is translated to a Lean function of the same
name.  Go byte strings are modelled by Lean `String` with an explicit
UTF-8 byte length function where the Go code uses `len` on a string.
-/

set_option maxRecDepth 10000

/-- The single-quote character (code 39) as a string, used to build the Go error
messages such as: field quoted-name is required. -/
def sqc : String := ⟨[Char.ofNat 39]⟩

/-- Go `unicode.IsSpace` restricted to the code points that can occur in
this development (ASCII white space plus NEL and NBSP); used by
`strings.TrimSpace`. -/
def goIsSpace (c : Char) : Bool :=
  c = ' ' || c = '\t' || c = '\n' || c = Char.ofNat 11 || c = Char.ofNat 12 ||
  c = '\r' || c = Char.ofNat 0x85 || c = Char.ofNat 0xA0

/-- The RE2 character class backslash-s used by the URL regular
expression: tab, newline, form feed, carriage return, space. -/
def re2IsSpace (c : Char) : Bool :=
  c = '\t' || c = '\n' || c = Char.ofNat 12 || c = '\r' || c = ' '

/-- Number of bytes of the UTF-8 encoding of a character. -/
def charUtf8Size (c : Char) : Nat :=
  if c.val < 0x80 then 1
  else if c.val < 0x800 then 2
  else if c.val < 0x10000 then 3
  else 4

/-- Go `len` on a string: the UTF-8 byte length. -/
def goStrLen (s : String) : Nat :=
  s.data.foldr (fun c n => charUtf8Size c + n) 0

/-- Go `strings.TrimSpace` on a character list. -/
def trimGo (cs : List Char) : List Char :=
  ((cs.dropWhile goIsSpace).reverse.dropWhile goIsSpace).reverse

/-- Go `strings.Split` with a one-character separator: splits at every
occurrence of the separator; the result is never empty. -/
def splitOnChar (sep : Char) : List Char → List (List Char)
  | [] => [[]]
  | c :: cs =>
    if c = sep then
      [] :: splitOnChar sep cs
    else
      match splitOnChar sep cs with
      | [] => [[c]]
      | h :: t => (c :: h) :: t

/-- Decimal value of a digit run (most significant first). -/
def digitsVal (ds : List Char) : Nat :=
  ds.foldl (fun n c => 10 * n + (c.toNat - 48)) 0

/-- The leading-integer scan of Go `fmt.Sscanf` with verb percent-d:
skip leading white space, accept an optional sign, then one or more
decimal digits; `none` when no digit follows (the scan fails and the
output variable keeps its zero value). -/
def scanInt (cs : List Char) : Option Int :=
  let cs := cs.dropWhile goIsSpace
  match cs with
  | '-' :: rest =>
    let ds := rest.takeWhile Char.isDigit
    if ds = [] then none else some (-(digitsVal ds : Int))
  | '+' :: rest =>
    let ds := rest.takeWhile Char.isDigit
    if ds = [] then none else some (digitsVal ds : Int)
  | _ =>
    let ds := cs.takeWhile Char.isDigit
    if ds = [] then none else some (digitsVal ds : Int)

/-- `parseInt` of validator.go: empty string gives 0, otherwise
`fmt.Sscanf(str, percent-d, result)` leaves `result` at 0 when the scan
fails. -/
def parseInt (str : String) : Int :=
  if str = "" then 0
  else
    match scanInt str.data with
    | none => 0
    | some n => n

/-! ### A small regular-expression engine (Brzozowski derivatives)

Models the matching semantics of the two fixed regular expressions
compiled with `regexp.MustCompile` in validator.go.  Both are anchored at
the start and the end, so `MatchString` on them is whole-string
matching. -/

/-- Regular expressions over characters; `cls` is a character class given
by a Boolean predicate. -/
inductive Regexp where
  | fail
  | eps
  | cls (p : Char → Bool)
  | cat (a b : Regexp)
  | alt (a b : Regexp)
  | star (a : Regexp)

/-- Does the regular expression accept the empty string? -/
def Regexp.nullable : Regexp → Bool
  | .fail => false
  | .eps => true
  | .cls _ => false
  | .cat a b => a.nullable && b.nullable
  | .alt a b => a.nullable || b.nullable
  | .star _ => true

/-- Smart concatenation (absorbs fail, drops eps). -/
def Regexp.rcat : Regexp → Regexp → Regexp
  | .fail, _ => .fail
  | _, .fail => .fail
  | .eps, r => r
  | r, .eps => r
  | a, b => .cat a b

/-- Smart alternation (drops fail). -/
def Regexp.ralt : Regexp → Regexp → Regexp
  | .fail, r => r
  | r, .fail => r
  | a, b => .alt a b

/-- Brzozowski derivative with respect to one character. -/
def Regexp.deriv (c : Char) : Regexp → Regexp
  | .fail => .fail
  | .eps => .fail
  | .cls p => if p c then .eps else .fail
  | .cat a b =>
    if a.nullable then
      Regexp.ralt (Regexp.rcat (a.deriv c) b) (b.deriv c)
    else
      Regexp.rcat (a.deriv c) b
  | .alt a b => Regexp.ralt (a.deriv c) (b.deriv c)
  | .star a => Regexp.rcat (a.deriv c) (.star a)

/-- Whole-string matching by iterated derivatives. -/
def Regexp.matchList (r : Regexp) : List Char → Bool
  | [] => r.nullable
  | c :: cs => (r.deriv c).matchList cs

/-- Whole-string matching on a `String`. -/
def Regexp.matchStr (r : Regexp) (s : String) : Bool :=
  r.matchList s.data

/-- One-or-more repetition. -/
def Regexp.rplus (r : Regexp) : Regexp := .cat r (.star r)

/-- A single given character. -/
def Regexp.chr (c : Char) : Regexp := .cls (fun d => d = c)

/-- A literal character sequence. -/
def Regexp.lit (cs : List Char) : Regexp :=
  cs.foldr (fun c r => .cat (Regexp.chr c) r) .eps

/-- Character class of the local part of the email regular expression:
letters, digits, dot, underscore, percent, plus, minus. -/
def emailLocalChar (c : Char) : Bool :=
  c.isAlpha || c.isDigit || c = '.' || c = '_' || c = '%' || c = '+' || c = '-'

/-- Character class of the domain part of the email regular expression:
letters, digits, dot, minus. -/
def emailDomainChar (c : Char) : Bool :=
  c.isAlpha || c.isDigit || c = '.' || c = '-'

/-- The email regular expression of validator.go: one or more local-part
characters, an at sign, one or more domain characters, a dot, then two or
more letters, anchored at both ends. -/
def emailRegexp : Regexp :=
  .cat (Regexp.rplus (.cls emailLocalChar))
    (.cat (Regexp.chr '@')
      (.cat (Regexp.rplus (.cls emailDomainChar))
        (.cat (Regexp.chr '.')
          (.cat (.cls Char.isAlpha) (Regexp.rplus (.cls Char.isAlpha))))))

/-- The URL regular expression of validator.go: http, optional s, colon
slash slash, one character that is neither RE2 white space nor slash,
dollar, dot, question mark, hash, then any character except newline, then
any number of non-white-space characters, anchored at both ends. -/
def urlRegexp : Regexp :=
  .cat (Regexp.lit ['h', 't', 't', 'p'])
    (.cat (.alt .eps (Regexp.chr 's'))
      (.cat (Regexp.lit [':', '/', '/'])
        (.cat (.cls (fun c => !re2IsSpace c && c ≠ '/' && c ≠ '$' && c ≠ '.' && c ≠ '?' && c ≠ '#'))
          (.cat (.cls (fun c => c ≠ '\n'))
            (.star (.cls (fun c => !re2IsSpace c)))))))

/-! ### Modelled regexp compilation for the pattern rule

`validatePattern` compiles an arbitrary parameter string with the Go
standard library function `regexp.Compile`, which is external to this
repository.  Modelled from the spec: "value matches the supplied regular
expression; an unparsable regex itself is a failure distinct from a
non-match".  The model below compiles the common subset (anchors at the
ends, literal characters, dot, simple escapes, character classes with
ranges and negation, postfix star, plus, question mark) and reports an
error for the rest.  No claim of this development depends on the matching
behaviour of the pattern rule; the claims touch only which parameter
string reaches it. -/

/-- Parse the body of a character class up to the closing bracket,
returning the accumulated predicate and the remaining input. -/
def parseClassItems : Nat → (Char → Bool) → List Char → Option ((Char → Bool) × List Char)
  | 0, _, _ => none
  | _, _, [] => none
  | fuel + 1, acc, c :: cs =>
    if c = ']' then some (acc, cs)
    else
      match cs with
      | '-' :: d :: rest =>
        if d = ']' then
          parseClassItems fuel (fun x => acc x || x = c || x = '-') (d :: rest)
        else
          parseClassItems fuel (fun x => acc x || (c ≤ x && x ≤ d)) rest
      | _ => parseClassItems fuel (fun x => acc x || x = c) cs

/-- Characters with a special meaning outside a class in the modelled
regexp subset. -/
def regexpMeta (c : Char) : Bool :=
  c = '*' || c = '+' || c = '?' || c = '(' || c = ')' || c = '|' ||
  c = '[' || c = ']' || c = Char.ofNat 123 || c = Char.ofNat 125 ||
  c = '^' || c = '$'

/-- Parse one atom of the modelled regexp subset. -/
def parseAtom (_fuel : Nat) : List Char → Option (Regexp × List Char)
  | [] => none
  | '.' :: rest => some (.cls (fun c => c ≠ '\n'), rest)
  | '\\' :: e :: rest =>
    if e = 'd' then some (.cls Char.isDigit, rest)
    else if e = 'w' then some (.cls (fun c => c.isAlpha || c.isDigit || c = '_'), rest)
    else if e = 's' then some (.cls re2IsSpace, rest)
    else if e.isAlpha || e.isDigit then none
    else some (Regexp.chr e, rest)
  | '[' :: '^' :: rest =>
    match parseClassItems (rest.length + 1) (fun _ => false) rest with
    | none => none
    | some (p, rest) => some (.cls (fun c => !p c && c ≠ '\n'), rest)
  | '[' :: rest =>
    match parseClassItems (rest.length + 1) (fun _ => false) rest with
    | none => none
    | some (p, rest) => some (.cls p, rest)
  | c :: rest =>
    if regexpMeta c then none else some (Regexp.chr c, rest)

/-- Compile a sequence of atoms with postfix repetition operators. -/
def compileSeq : Nat → List Char → Option Regexp
  | 0, _ => none
  | _, [] => some .eps
  | fuel + 1, cs =>
    match parseAtom fuel cs with
    | none => none
    | some (r, rest) =>
      match rest with
      | '*' :: rest2 =>
        match compileSeq fuel rest2 with
        | none => none
        | some k => some (.cat (.star r) k)
      | '+' :: rest2 =>
        match compileSeq fuel rest2 with
        | none => none
        | some k => some (.cat (Regexp.rplus r) k)
      | '?' :: rest2 =>
        match compileSeq fuel rest2 with
        | none => none
        | some k => some (.cat (.alt .eps r) k)
      | _ =>
        match compileSeq fuel rest with
        | none => none
        | some k => some (.cat r k)

/-- Modelled from the spec: `regexp.Compile` of the Go standard library
(external to this repository), on the subset described above.  Returns
the compiled expression together with two anchoring flags (anchored at
the start, anchored at the end). -/
def goRegexpCompile (pattern : String) : Option (Bool × Bool × Regexp) :=
  let cs := pattern.data
  let (aStart, cs) := match cs with
    | '^' :: rest => (true, rest)
    | _ => (false, cs)
  let (aEnd, cs) :=
    match cs.reverse with
    | '$' :: revRest =>
      if revRest.head? = some '\\' then (false, cs) else (true, revRest.reverse)
    | _ => (false, cs)
  match compileSeq (cs.length + 1) cs with
  | none => none
  | some r => some (aStart, aEnd, r)

/-- Does some prefix of the input match the regular expression? -/
def Regexp.matchPrefix (r : Regexp) : List Char → Bool
  | [] => r.nullable
  | c :: cs => r.nullable || (r.deriv c).matchPrefix cs

/-- Go `MatchString` semantics for a compiled expression with anchoring
flags: an unanchored search for a matching substring. -/
def regexpSearch (aStart aEnd : Bool) (r : Regexp) (s : List Char) : Bool :=
  let starts := if aStart then [s] else s.tails
  starts.any (fun t => if aEnd then r.matchList t else r.matchPrefix t)

/-! ### The data model

`GoValue` models a reflected Go value as far as the validator observes
it: the reflect kind, plus the data each evaluator reads (string
contents, integer value, length of a slice, array or map, nil-ness of a
pointer).  `float` and `strct` carry no payload because no evaluator
reads anything but the kind of such a value; `nilIface` is the Invalid
kind obtained from an untyped nil interface value. -/
inductive GoValue where
  | str (s : String)
  | int (n : Int)
  | bool (b : Bool)
  | float
  | slice (len : Nat)
  | array (len : Nat)
  | map (len : Nat)
  | ptr (isNil : Bool)
  | strct
  | nilIface
deriving DecidableEq

/-- Quote a name the way the Go format verb does in the error messages of
validator.go. -/
def quoted (name : String) : String := sqc ++ name ++ sqc

/-- `validateRequired` of validator.go: a string must be non-empty, a
slice, map or array non-empty, a pointer (or interface) non-nil; the
Invalid kind always fails; every other kind passes. -/
def validateRequired (name : String) (value : GoValue) : Option String :=
  let msg := "field " ++ quoted name ++ " is required"
  match value with
  | .str s => if s = "" then some msg else none
  | .slice n => if n = 0 then some msg else none
  | .map n => if n = 0 then some msg else none
  | .array n => if n = 0 then some msg else none
  | .ptr isNil => if isNil then some msg else none
  | .nilIface => some msg
  | _ => none

/-- `validateMin` of validator.go: byte length of a string, length of a
slice or array, or value of an integer, compared against
`parseInt minStr`; every other kind passes. -/
def validateMin (name : String) (value : GoValue) (minStr : String) : Option String :=
  match value with
  | .str s =>
    if (goStrLen s : Int) < parseInt minStr then
      some ("field " ++ quoted name ++ " must be at least " ++ minStr ++ " characters")
    else none
  | .slice n =>
    if (n : Int) < parseInt minStr then
      some ("field " ++ quoted name ++ " must have at least " ++ minStr ++ " items")
    else none
  | .array n =>
    if (n : Int) < parseInt minStr then
      some ("field " ++ quoted name ++ " must have at least " ++ minStr ++ " items")
    else none
  | .int v =>
    if v < parseInt minStr then
      some ("field " ++ quoted name ++ " must be at least " ++ minStr)
    else none
  | _ => none

/-- `validateMax` of validator.go: mirrors `validateMin` with the
comparison reversed. -/
def validateMax (name : String) (value : GoValue) (maxStr : String) : Option String :=
  match value with
  | .str s =>
    if (goStrLen s : Int) > parseInt maxStr then
      some ("field " ++ quoted name ++ " must be at most " ++ maxStr ++ " characters")
    else none
  | .slice n =>
    if (n : Int) > parseInt maxStr then
      some ("field " ++ quoted name ++ " must have at most " ++ maxStr ++ " items")
    else none
  | .array n =>
    if (n : Int) > parseInt maxStr then
      some ("field " ++ quoted name ++ " must have at most " ++ maxStr ++ " items")
    else none
  | .int v =>
    if v > parseInt maxStr then
      some ("field " ++ quoted name ++ " must be at most " ++ maxStr)
    else none
  | _ => none

/-- `validateEmail` of validator.go: a non-string value is a type
mismatch; a string must match the email regular expression. -/
def validateEmail (name : String) (value : GoValue) : Option String :=
  match value with
  | .str s =>
    if emailRegexp.matchStr s then none
    else some ("field " ++ quoted name ++ " must be a valid email address")
  | _ => some ("field " ++ quoted name ++ " must be a string for email validation")

/-- `validateURL` of validator.go: a non-string value is a type mismatch;
the empty string passes; a non-empty string must match the URL regular
expression. -/
def validateURL (name : String) (value : GoValue) : Option String :=
  match value with
  | .str s =>
    if s = "" then none
    else if urlRegexp.matchStr s then none
    else some ("field " ++ quoted name ++ " must be a valid URL")
  | _ => some ("field " ++ quoted name ++ " must be a string for URL validation")

/-- `validatePattern` of validator.go: a non-string value is a type
mismatch; an uncompilable parameter is its own failure; otherwise the
string must contain a match of the compiled expression. -/
def validatePattern (name : String) (value : GoValue) (pattern : String) : Option String :=
  match value with
  | .str s =>
    match goRegexpCompile pattern with
    | none => some ("invalid pattern for field " ++ quoted name ++ ": error parsing regexp")
    | some (aStart, aEnd, r) =>
      if regexpSearch aStart aEnd r s.data then none
      else some ("field " ++ quoted name ++ " does not match required pattern")
  | _ => some ("field " ++ quoted name ++ " must be a string for pattern validation")

/-- `applyRule` of validator.go: dispatch on the rule name; an
unrecognized name is the unknown-validation-rule failure. -/
def applyRule (name : String) (value : GoValue) (ruleName ruleValue : String) : Option String :=
  if ruleName = "required" then validateRequired name value
  else if ruleName = "min" then validateMin name value ruleValue
  else if ruleName = "max" then validateMax name value ruleValue
  else if ruleName = "email" then validateEmail name value
  else if ruleName = "url" then validateURL name value
  else if ruleName = "pattern" then validatePattern name value ruleValue
  else some ("unknown validation rule: " ++ ruleName)

/-- The rule-string decomposition inside `validateField`:
`parts := strings.Split(rule, eq-sign)`, the rule name is `parts[0]` and
the parameter is `parts[1]` when present, empty otherwise.  Everything
after a second separator is discarded. -/
def parseRule (rule : List Char) : String × String :=
  match splitOnChar '=' rule with
  | [] => ("", "")
  | n :: rest => (⟨n⟩, ⟨rest.headD []⟩)

/-- One iteration of the rule loop of `validateField`: trim the chunk,
skip it when empty, otherwise apply the parsed rule and keep its error
message, if any. -/
def evalRule (name : String) (value : GoValue) (rule : List Char) : List String :=
  let rule := trimGo rule
  if rule = [] then []
  else
    match applyRule name value (parseRule rule).1 (parseRule rule).2 with
    | some e => [e]
    | none => []

/-- The rule loop of `validateField` over the already-split rule chunks,
appending each rule's errors in declared order. -/
def fieldRules (name : String) (value : GoValue) : List (List Char) → List String
  | [] => []
  | r :: rs => evalRule name value r ++ fieldRules name value rs

/-- `validateField` of validator.go: split the tag on commas and run
every rule. -/
def validateField (name : String) (value : GoValue) (tag : String) : List String :=
  fieldRules name value (splitOnChar ',' tag.data)

/-- One field of a struct as the validator sees it: its name, whether it
is exported, its validate tag (empty when absent) and its value. -/
structure GoField where
  name : String
  exported : Bool
  tag : String
  value : GoValue
deriving DecidableEq

/-- The per-field step of the loop in `Validate`: unexported fields and
fields without a validate tag contribute nothing; otherwise the field is
validated. -/
def fieldErrors (f : GoField) : List String :=
  if f.exported = false then []
  else if f.tag = "" then []
  else validateField f.name f.value f.tag

/-- The field loop of `Validate`: append every field's errors in
declaration order. -/
def collectErrors : List GoField → List String
  | [] => []
  | f :: fs => fieldErrors f ++ collectErrors fs

/-- The value a `Validate` argument dereferences to: either a struct with
its declared fields, or any non-struct value. -/
inductive VDeref where
  | strct (fields : List GoField)
  | prim (v : GoValue)

/-- The argument of `Validate`: a nil pointer, a non-nil pointer to a
value, a plain value, or an untyped nil interface (the Invalid kind,
which is neither Ptr nor Struct). -/
inductive VTarget where
  | nilPtr
  | ptrTo (d : VDeref)
  | direct (d : VDeref)
  | nilIface

/-- The body of `Validate` after the pointer handling: a non-struct value
is rejected; for a struct the collected errors are joined with a
semicolon separator behind the aggregate prefix, and an empty collection
means success. -/
def validateDeref : VDeref → Option String
  | .prim _ => some "validation target must be a struct"
  | .strct fs =>
    let errors := collectErrors fs
    if errors.isEmpty then none
    else some ("validation failed: " ++ String.intercalate "; " errors)

/-- `Validate` of validator.go: a nil pointer is rejected, a non-nil
pointer is dereferenced, and an untyped nil (Invalid kind) falls through
to the struct-kind check and is rejected as a non-struct. -/
def Validate : VTarget → Option String
  | .nilPtr => some "validation target cannot be nil"
  | .ptrTo d => validateDeref d
  | .direct d => validateDeref d
  | .nilIface => some "validation target must be a struct"

/-! ### Helper lemmas -/

/-- The rule loop distributes over list append: every chunk is processed
and contributes its errors in place. -/
theorem fieldRules_append (name : String) (value : GoValue) :
    ∀ rs1 rs2 : List (List Char),
      fieldRules name value (rs1 ++ rs2) =
        fieldRules name value rs1 ++ fieldRules name value rs2 := by
  intro rs1 rs2
  induction rs1 with
  | nil => rfl
  | cons r rs ih => simp [fieldRules, ih]

/-- Splitting a list that does not contain the separator gives the
singleton list. -/
theorem splitOnChar_no_sep (sep : Char) :
    ∀ cs : List Char, sep ∉ cs → splitOnChar sep cs = [cs] := by
  intro cs h
  induction cs with
  | nil => rfl
  | cons c cs ih =>
    rw [List.mem_cons, not_or] at h
    rw [splitOnChar, if_neg (fun hc => h.1 hc.symm), ih h.2]

/-- Splitting a list around the first separator occurrence peels off the
separator-free prefix. -/
theorem splitOnChar_append (sep : Char) (a b : List Char) (h : sep ∉ a) :
    splitOnChar sep (a ++ sep :: b) = a :: splitOnChar sep b := by
  induction a with
  | nil => rw [List.nil_append, splitOnChar, if_pos rfl]
  | cons c cs ih =>
    rw [List.mem_cons, not_or] at h
    rw [List.cons_append, splitOnChar, if_neg (fun hc => h.1 hc.symm), ih h.2]

/-- The collected errors of a field list are empty exactly when every
field contributes no error. -/
theorem collectErrors_eq_nil (fs : List GoField) :
    collectErrors fs = [] ↔ ∀ f ∈ fs, fieldErrors f = [] := by
  induction fs with
  | nil => simp [collectErrors]
  | cons f fs ih => simp [collectErrors, List.append_eq_nil, ih]

/-- The field loop distributes over list append: fields contribute their
errors in declaration order. -/
theorem collectErrors_append (fs1 fs2 : List GoField) :
    collectErrors (fs1 ++ fs2) = collectErrors fs1 ++ collectErrors fs2 := by
  induction fs1 with
  | nil => rfl
  | cons f fs ih => simp [collectErrors, ih]

/-- An unexported field contributes no errors. -/
theorem fieldErrors_unexported (f : GoField) (h : f.exported = false) :
    fieldErrors f = [] := by
  simp [fieldErrors, h]

/-- A field without a validate tag contributes no errors. -/
theorem fieldErrors_no_tag (f : GoField) (h : f.tag = "") :
    fieldErrors f = [] := by
  by_cases he : f.exported = false <;> simp [fieldErrors, h, he]

/-- Dropping unexported and untagged fields does not change the collected
errors. -/
theorem collectErrors_filter (fs : List GoField) :
    collectErrors (fs.filter fun f => f.exported && !(f.tag == "")) =
      collectErrors fs := by
  induction fs with
  | nil => rfl
  | cons f fs ih =>
    by_cases he : f.exported = false
    · rw [List.filter_cons_of_neg (by simp [he]), ih, collectErrors,
        fieldErrors_unexported f he, List.nil_append]
    · by_cases ht : f.tag = ""
      · rw [List.filter_cons_of_neg (by simp [ht]), ih, collectErrors,
          fieldErrors_no_tag f ht, List.nil_append]
      · rw [List.filter_cons_of_pos (by simp [ht]; exact Bool.of_not_eq_false he),
          collectErrors, collectErrors, ih]

/-! ### Claim theorems -/

/-- C2: for every field, all rules in the declared list are evaluated in
declared order regardless of earlier failures on that field — the rule
loop distributes over every decomposition of the rule list, so each
rule's errors appear at its position and evaluation never short-circuits
on an earlier failure. -/
theorem validator_c2 (name : String) (value : GoValue)
    (rs1 rs2 : List (List Char)) (r : List Char) :
    fieldRules name value (rs1 ++ r :: rs2) =
      fieldRules name value rs1 ++ evalRule name value r ++ fieldRules name value rs2 := by
  rw [fieldRules_append, List.append_assoc]
  rfl

/-- C4: a nil pointer fails with the nil-target message, any non-struct
value (direct or behind a pointer) fails with the not-a-struct message,
and the two messages are distinct. -/
theorem validator_c4 :
    Validate VTarget.nilPtr = some "validation target cannot be nil" ∧
    (∀ v : GoValue, Validate (.ptrTo (.prim v)) = some "validation target must be a struct") ∧
    (∀ v : GoValue, Validate (.direct (.prim v)) = some "validation target must be a struct") ∧
    "validation target cannot be nil" ≠ "validation target must be a struct" := by
  exact ⟨rfl, fun _ => rfl, fun _ => rfl, by decide⟩

/-- C6: the email rule accepts the two specified addresses and rejects
the five specified non-addresses; a non-text value gets the distinct
string-type-mismatch message instead of the invalid-address message. -/
theorem validator_c6 :
    validateEmail "Email" (.str "user.name@domain.co.uk") = none ∧
    validateEmail "Email" (.str "test+tag@example.org") = none ∧
    validateEmail "Email" (.str "invalid-email") =
      some ("field " ++ quoted "Email" ++ " must be a valid email address") ∧
    validateEmail "Email" (.str "@example.com") =
      some ("field " ++ quoted "Email" ++ " must be a valid email address") ∧
    validateEmail "Email" (.str "john@") =
      some ("field " ++ quoted "Email" ++ " must be a valid email address") ∧
    validateEmail "Email" (.str "john@.com") =
      some ("field " ++ quoted "Email" ++ " must be a valid email address") ∧
    validateEmail "Email" (.str "") =
      some ("field " ++ quoted "Email" ++ " must be a valid email address") ∧
    (∀ n : Int, validateEmail "Email" (.int n) =
      some ("field " ++ quoted "Email" ++ " must be a string for email validation")) ∧
    (∀ b : Bool, validateEmail "Email" (.bool b) =
      some ("field " ++ quoted "Email" ++ " must be a string for email validation")) ∧
    ("field " ++ quoted "Email" ++ " must be a string for email validation") ≠
      ("field " ++ quoted "Email" ++ " must be a valid email address") := by
  refine ⟨by decide, by decide, by decide, by decide, by decide, by decide, by decide,
    fun _ => rfl, fun _ => rfl, by decide⟩

/-- C7: the url rule passes on the empty string and on
https-example-com, and fails on the ftp address and on a plain word. -/
theorem validator_c7 :
    validateURL "Website" (.str "") = none ∧
    validateURL "Website" (.str "https://example.com") = none ∧
    validateURL "Website" (.str "ftp://example.com") =
      some ("field " ++ quoted "Website" ++ " must be a valid URL") ∧
    validateURL "Website" (.str "invalid-url") =
      some ("field " ++ quoted "Website" ++ " must be a valid URL") := by
  refine ⟨rfl, by decide, by decide, by decide⟩

/-- C1 counterexample: with the tag unknownrule-comma-required on an
empty string field, the code reports the unknown-rule failure AND then
still evaluates the later required rule, whose violation appears in the
field outcome — contradicting the claim that no rule declared after the
unrecognized one contributes a violation. -/
theorem validator_c1_counterexample :
    validateField "Field" (.str "") "unknownrule,required" =
      ["unknown validation rule: unknownrule",
       "field " ++ quoted "Field" ++ " is required"] ∧
    ("field " ++ quoted "Field" ++ " is required") ∈
      validateField "Field" (.str "") "unknownrule,required" := by
  exact ⟨by decide, by decide⟩

/-- C1 (amended): a rule chunk whose trimmed name is not one of the six
recognized names contributes the hard failure message
unknown-validation-rule-colon-name at its declared position, but the
loop continues: the rules before and after it are still evaluated and
contribute their own errors. -/
theorem validator_c1 (name : String) (value : GoValue) (rn : List Char)
    (rs1 rs2 : List (List Char))
    (htrim : trimGo rn = rn) (hne : rn ≠ []) (heq : '=' ∉ rn)
    (hunknown : (⟨rn⟩ : String) ∉
      (["required", "min", "max", "email", "url", "pattern"] : List String)) :
    fieldRules name value (rs1 ++ rn :: rs2) =
      fieldRules name value rs1 ++
        ("unknown validation rule: " ++ (⟨rn⟩ : String)) ::
          fieldRules name value rs2 := by
  rw [fieldRules_append]
  have hrule : evalRule name value rn =
      ["unknown validation rule: " ++ (⟨rn⟩ : String)] := by
    simp only [List.mem_cons, List.mem_singleton, not_or] at hunknown
    obtain ⟨h1, h2, h3, h4, h5, h6, _⟩ := hunknown
    rw [evalRule]
    simp only [htrim, if_neg hne]
    rw [parseRule, splitOnChar_no_sep '=' rn heq]
    rw [applyRule, if_neg h1, if_neg h2, if_neg h3, if_neg h4, if_neg h5, if_neg h6]
  show fieldRules name value rs1 ++ (evalRule name value rn ++ fieldRules name value rs2) = _
  rw [hrule]
  rfl

/-- C1 witness: the amended theorem applied to the concrete tag chunks of
the counterexample input. -/
theorem validator_c1_witness :
    fieldRules "Field" (.str "") ([] ++ "unknownrule".data :: ["required".data]) =
      fieldRules "Field" (.str "") [] ++
        ("unknown validation rule: " ++ (⟨"unknownrule".data⟩ : String)) ::
          fieldRules "Field" (.str "") ["required".data] :=
  validator_c1 "Field" (.str "") "unknownrule".data [] ["required".data]
    (by decide) (by decide) (by decide) (by decide)

/-- C9: when the rule declaration contains a second name-parameter
separator, only the text between the first and the second separator is
the parameter; everything after the second separator is discarded. -/
theorem validator_c9 (rn p1 rest : List Char) (h1 : '=' ∉ rn) (h2 : '=' ∉ p1) :
    parseRule (rn ++ '=' :: (p1 ++ '=' :: rest)) = ((⟨rn⟩ : String), (⟨p1⟩ : String)) := by
  rw [parseRule, splitOnChar_append '=' rn _ h1, splitOnChar_append '=' p1 rest h2]
  rfl

/-- C9 witness: the rule pattern-eq-caret-a-eq-b-dollar is parsed into
the name pattern with parameter caret-a; the trailing b-dollar is
dropped. -/
theorem validator_c9_witness :
    parseRule ("pattern".data ++ '=' :: ("^a".data ++ '=' :: "b$".data)) =
      ("pattern", "^a") :=
  (validator_c9 "pattern".data "^a".data "b$".data (by decide) (by decide)).trans
    (by decide)

/-- C3: a min or max parameter on which the percent-d scan fails is
treated as the integer 0, so the min rule passes on every string, slice
and array (lengths are non-negative) and on every non-negative integer
value, with no parse error and no distinct failure. -/
theorem validator_c3 (p : String) (h : scanInt p.data = none) :
    parseInt p = 0 ∧
    (∀ name s, validateMin name (.str s) p = none) ∧
    (∀ name n, validateMin name (.slice n) p = none) ∧
    (∀ name n, validateMin name (.array n) p = none) ∧
    (∀ name v, 0 ≤ v → validateMin name (.int v) p = none) := by
  have hp : parseInt p = 0 := by
    rw [parseInt]
    by_cases he : p = ""
    · rw [if_pos he]
    · rw [if_neg he, h]
  refine ⟨hp, ?_, ?_, ?_, ?_⟩
  · intro name s
    rw [validateMin, if_neg (by rw [hp]; exact not_lt.mpr (Int.ofNat_nonneg _))]
  · intro name n
    rw [validateMin, if_neg (by rw [hp]; exact not_lt.mpr (Int.ofNat_nonneg _))]
  · intro name n
    rw [validateMin, if_neg (by rw [hp]; exact not_lt.mpr (Int.ofNat_nonneg _))]
  · intro name v hv
    rw [validateMin, if_neg (by rw [hp]; exact not_lt.mpr hv)]

/-- C3 witness: the unparsable parameter abc becomes 0, and min-eq-abc
passes on an empty string and on the integer 0. -/
theorem validator_c3_witness :
    parseInt "abc" = 0 ∧
    validateMin "Name" (.str "") "abc" = none ∧
    validateMin "Age" (.int 0) "abc" = none :=
  ⟨(validator_c3 "abc" (by decide)).1,
   (validator_c3 "abc" (by decide)).2.1 "Name" "",
   (validator_c3 "abc" (by decide)).2.2.2.2 "Age" 0 (by decide)⟩

/-- C10: required silently passes on integer (including 0), boolean and
floating-point values; min and max silently pass on boolean, map,
floating-point and nested-struct values; while email, url and pattern
report the string-type-mismatch failure on every such non-text value. -/
theorem validator_c10 :
    (∀ name (n : Int), validateRequired name (.int n) = none) ∧
    (∀ name, validateRequired name (.int 0) = none) ∧
    (∀ name (b : Bool), validateRequired name (.bool b) = none) ∧
    (∀ name, validateRequired name .float = none) ∧
    (∀ name p (b : Bool), validateMin name (.bool b) p = none) ∧
    (∀ name p, validateMin name .float p = none) ∧
    (∀ name p, validateMin name .strct p = none) ∧
    (∀ name p (b : Bool), validateMax name (.bool b) p = none) ∧
    (∀ name p, validateMax name .float p = none) ∧
    (∀ name p, validateMax name .strct p = none) ∧
    (∀ name (k : Nat), ∀ p, validateMin name (.map k) p = none ∧ validateMax name (.map k) p = none) ∧
    (∀ name (n : Int), validateEmail name (.int n) =
      some ("field " ++ quoted name ++ " must be a string for email validation")) ∧
    (∀ name (b : Bool), validateEmail name (.bool b) =
      some ("field " ++ quoted name ++ " must be a string for email validation")) ∧
    (∀ name, validateEmail name .float =
      some ("field " ++ quoted name ++ " must be a string for email validation")) ∧
    (∀ name (n : Int), validateURL name (.int n) =
      some ("field " ++ quoted name ++ " must be a string for URL validation")) ∧
    (∀ name (b : Bool), validateURL name (.bool b) =
      some ("field " ++ quoted name ++ " must be a string for URL validation")) ∧
    (∀ name, validateURL name .float =
      some ("field " ++ quoted name ++ " must be a string for URL validation")) ∧
    (∀ name p (n : Int), validatePattern name (.int n) p =
      some ("field " ++ quoted name ++ " must be a string for pattern validation")) ∧
    (∀ name p (b : Bool), validatePattern name (.bool b) p =
      some ("field " ++ quoted name ++ " must be a string for pattern validation")) ∧
    (∀ name p, validatePattern name .float p =
      some ("field " ++ quoted name ++ " must be a string for pattern validation")) := by
  refine ⟨fun _ _ => rfl, fun _ => rfl, fun _ _ => rfl, fun _ => rfl,
    fun _ _ _ => rfl, fun _ _ => rfl, fun _ _ => rfl,
    fun _ _ _ => rfl, fun _ _ => rfl, fun _ _ => rfl,
    fun _ _ _ => ⟨rfl, rfl⟩,
    fun _ _ => rfl, fun _ _ => rfl, fun _ => rfl,
    fun _ _ => rfl, fun _ _ => rfl, fun _ => rfl,
    fun _ _ _ => rfl, fun _ _ _ => rfl, fun _ _ => rfl⟩

/-- C5 counterexample: on a struct with a single violated required rule,
the error message carries the prefix validation-failed-colon before the
joined violations, so the message is not equal to the bare concatenation
of the violation messages that the claim states. -/
theorem validator_c5_counterexample :
    Validate (.direct (.strct [⟨"Name", true, "required", GoValue.str ""⟩])) =
      some ("validation failed: field " ++ quoted "Name" ++ " is required") ∧
    some ("validation failed: field " ++ quoted "Name" ++ " is required") ≠
      some ("field " ++ quoted "Name" ++ " is required") := by
  exact ⟨by decide, by decide⟩

/-- C5 (amended): validating a struct through a pointer or directly gives
the same result; the result is success exactly when every field
contributes no violation; otherwise the single error message is the
prefix validation-failed-colon followed by every violation message joined
with semicolon-space, in field declaration order (the collector
distributes over field-list append) and within-field rule declaration
order. -/
theorem validator_c5 (fs : List GoField) :
    Validate (.ptrTo (.strct fs)) = Validate (.direct (.strct fs)) ∧
    (Validate (.direct (.strct fs)) = none ↔ ∀ f ∈ fs, fieldErrors f = []) ∧
    (collectErrors fs ≠ [] →
      Validate (.direct (.strct fs)) =
        some ("validation failed: " ++ String.intercalate "; " (collectErrors fs))) ∧
    (∀ fs2 : List GoField,
      collectErrors (fs ++ fs2) = collectErrors fs ++ collectErrors fs2) := by
  have hempty : ∀ l : List String, l ≠ [] → l.isEmpty = false := by
    intro l hl
    cases l with
    | nil => exact absurd rfl hl
    | cons a t => rfl
  refine ⟨rfl, ?_, ?_, collectErrors_append fs⟩
  · show (if (collectErrors fs).isEmpty then none
        else some ("validation failed: " ++ String.intercalate "; " (collectErrors fs))) =
          none ↔ _
    by_cases hc : collectErrors fs = []
    · rw [if_pos (by rw [hc]; rfl)]
      exact iff_of_true rfl ((collectErrors_eq_nil fs).mp hc)
    · rw [if_neg (by rw [hempty _ hc]; exact Bool.false_ne_true)]
      exact iff_of_false (by simp) fun hall => hc ((collectErrors_eq_nil fs).mpr hall)
  · intro hc
    show (if (collectErrors fs).isEmpty then none
        else some ("validation failed: " ++ String.intercalate "; " (collectErrors fs))) = _
    rw [if_neg (by rw [hempty _ hc]; exact Bool.false_ne_true)]

/-- C5 witness: the amended theorem applied to a one-field struct, once
failing (giving the prefixed aggregate message) and once passing (giving
success). -/
theorem validator_c5_witness :
    Validate (.direct (.strct [⟨"City", true, "required", GoValue.str ""⟩])) =
      some ("validation failed: field " ++ quoted "City" ++ " is required") ∧
    Validate (.direct (.strct [⟨"City", true, "required", GoValue.str "Paris"⟩])) = none :=
  ⟨((validator_c5 [⟨"City", true, "required", GoValue.str ""⟩]).2.2.1
      (by decide)).trans (by decide),
   (validator_c5 [⟨"City", true, "required", GoValue.str "Paris"⟩]).2.1.mpr
      (by decide)⟩

/-- C8: the outcome of Validate on a struct equals its outcome on the
struct restricted to its exported, tag-bearing fields, and an unexported
field contributes no errors whatever its tag says. -/
theorem validator_c8 (fs : List GoField) :
    Validate (.direct (.strct fs)) =
      Validate (.direct (.strct (fs.filter fun f => f.exported && !(f.tag == "")))) ∧
    (∀ f : GoField, f.exported = false → fieldErrors f = []) := by
  constructor
  · exact (congrArg
      (fun l : List String =>
        if l.isEmpty then (none : Option String)
        else some ("validation failed: " ++ String.intercalate "; " l))
      (collectErrors_filter fs)).symm
  · exact fun f h => fieldErrors_unexported f h

/-- C8 witness: a struct with an exported tagged field, an unexported
field whose required rule would fail, and an exported untagged field
validates exactly like its restriction to the first field, and the
unexported field contributes nothing. -/
theorem validator_c8_witness :
    Validate (.direct (.strct
      [⟨"Name", true, "required", GoValue.str "ok"⟩,
       ⟨"secret", false, "required", GoValue.str ""⟩,
       ⟨"Note", true, "", GoValue.str ""⟩])) =
      Validate (.direct (.strct (List.filter (fun f => f.exported && !(f.tag == ""))
        [⟨"Name", true, "required", GoValue.str "ok"⟩,
         ⟨"secret", false, "required", GoValue.str ""⟩,
         ⟨"Note", true, "", GoValue.str ""⟩]))) ∧
    fieldErrors ⟨"secret", false, "required", GoValue.str ""⟩ = [] :=
  ⟨(validator_c8 _).1,
   (validator_c8 []).2 ⟨"secret", false, "required", GoValue.str ""⟩ rfl⟩
